import Mathlib

/-
Verification of the error-construction and conversion pipeline of
ts-rust-result: the stack-capture policy (src/errors/stack.ts), the fluent
error builder (src/errors/builder.ts), the factory shortcuts
(src/errors/factories.ts), the conversion utilities
(src/errors/conversion.ts), the core Result encoding (src/index.ts) and the
log-context formatter (src/observability/logging.ts), shallowly embedded in
Lean 4.  JavaScript runtime values that the code inspects (truthiness,
typeof, String(...) conversion, property bags) are modelled by the
inductive type JSValue below.
-/

namespace TsRustResult

/-- Model of the JavaScript values this library inspects: undefined, null,
booleans, numbers, strings, native Error objects (with their message and
optional stack text), plain objects (ordered property bags) and arrays. -/
inductive JSValue : Type where
  | undefined : JSValue
  | null : JSValue
  | bool (b : Bool) : JSValue
  | num (n : Int) : JSValue
  | str (s : String) : JSValue
  | errObj (message : String) (stack : Option String) : JSValue
  | obj (props : List (String × JSValue)) : JSValue
  | arr (elems : List JSValue) : JSValue

/-- JavaScript truthiness: undefined, null, false, 0 and the empty string
are falsy; every object (including empty ones) is truthy. -/
def jsTruthy : JSValue → Bool
  | .undefined => false
  | .null => false
  | .bool b => b
  | .num n => n != 0
  | .str s => s != ""
  | .errObj _ _ => true
  | .obj _ => true
  | .arr _ => true

/-- The JavaScript typeof operator on the modelled values (typeof null is
the string "object"). -/
def jsTypeof : JSValue → String
  | .undefined => "undefined"
  | .null => "object"
  | .bool _ => "boolean"
  | .num _ => "number"
  | .str _ => "string"
  | .errObj _ _ => "object"
  | .obj _ => "object"
  | .arr _ => "object"

mutual

/-- The JavaScript String(v) conversion on the modelled values: an Error
stringifies as "Error: message", a plain object as "[object Object]", an
array joins the stringified elements with commas. -/
def jsToString : JSValue → String
  | .undefined => "undefined"
  | .null => "null"
  | .bool b => if b then "true" else "false"
  | .num n => toString n
  | .str s => s
  | .errObj m _ => if m = "" then "Error" else "Error: " ++ m
  | .obj _ => "[object Object]"
  | .arr xs => jsToStringList xs

/-- Helper for jsToString on arrays. -/
def jsToStringList : List JSValue → String
  | [] => ""
  | [x] => jsToString x
  | x :: y :: xs => jsToString x ++ "," ++ jsToStringList (y :: xs)

end

/-- Own-property lookup on an ordered property bag. -/
def jsGetProp (props : List (String × JSValue)) (k : String) : Option JSValue :=
  (props.find? (fun p => p.1 = k)).map (fun p => p.2)

/-- JavaScript property assignment on an ordered property bag: an existing
key keeps its position and gets the new value, a new key is appended. -/
def setK (props : List (String × JSValue)) (k : String) (v : JSValue) :
    List (String × JSValue) :=
  if props.any (fun p => p.1 = k) then
    props.map (fun p => if p.1 = k then (k, v) else p)
  else props ++ [(k, v)]

/-- Object spread / Object.assign: copy every property of extra onto base,
in order (models both the spread in withContext and Object.assign in
toSentryError). -/
def spreadInto (base extra : List (String × JSValue)) : List (String × JSValue) :=
  extra.foldl (fun acc p => setK acc p.1 p.2) base

/-- The ambient state the stack module of src/errors/stack.ts reads: the
process-wide captureStacksOverride, the NODE_ENV environment variable, and
the raw text the runtime would put in a fresh Error().stack at the capture
site (the empty string models a missing stack, matching the source's
fallback new Error().stack || ''). -/
structure StackConfig : Type where
  override : Option Bool
  nodeEnv : Option String
  rawStack : String

/-- shouldCaptureStack of src/errors/stack.ts: capture in development and
test environments. -/
def shouldCaptureStack (c : StackConfig) : Bool :=
  c.nodeEnv == some "development" || c.nodeEnv == some "test"

/-- getCaptureStacks of src/errors/stack.ts: the override takes precedence,
otherwise NODE_ENV decides. -/
def getCaptureStacks (c : StackConfig) : Bool :=
  match c.override with
  | some b => b
  | none => shouldCaptureStack c

/-- Splitting of a character list at every occurrence of a separator
character (the semantics of JavaScript's split on a one-character
separator). -/
def splitCharAux (c : Char) : List Char → List (List Char)
  | [] => [[]]
  | x :: xs =>
    let r := splitCharAux c xs
    if x = c then [] :: r
    else
      match r with
      | [] => [[x]]
      | y :: ys => (x :: y) :: ys

/-- String split on a one-character separator. -/
def splitOnChar (c : Char) (s : String) : List String :=
  (splitCharAux c s.data).map String.mk

/-- Removal of the first two lines of a raw stack text (the "Error" header
line and the captureStack frame), as done in captureStack: split on
newline, drop two, join with newline. -/
def dropTwoLines (s : String) : String :=
  String.intercalate "\n" ((splitOnChar '\n' s).drop 2)

/-- captureStack of src/errors/stack.ts: returns the empty string when the
effective policy is off, otherwise the raw stack with the first two lines
removed. -/
def captureStack (c : StackConfig) : String :=
  if getCaptureStacks c then dropTwoLines c.rawStack else ""

/-- captureStackFromError of src/errors/stack.ts: returns the empty string
when the effective policy is off, otherwise the foreign error's own stack
text (empty when the error has none). -/
def captureStackFromError (c : StackConfig) (stk : Option String) : String :=
  if getCaptureStacks c then stk.getD "" else ""

/-- A context object: the plain object accumulated by withContext.  The
frozen flag models Object.freeze status (context objects are created plain,
so frozen is false unless something freezes them). -/
structure CtxObj : Type where
  frozen : Bool
  entries : List (String × JSValue)

/-- The DomainError record produced by the builder (src/errors/types.ts and
builder.ts).  Option fields model presence of the property on the built
object (build strips undefined-valued fields); frozen models whether
Object.freeze was applied to the record itself.  A cause is either another
DomainError record (Sum.inl) or an arbitrary foreign value (Sum.inr). -/
inductive DomainError : Type where
  | mk (frozen : Bool) (kind message : String) (context : Option CtxObj)
      (cause : Option (DomainError ⊕ JSValue)) (stack : Option String)
      (timestamp : Nat) : DomainError

def DomainError.frozen : DomainError → Bool
  | .mk f _ _ _ _ _ _ => f

def DomainError.kind : DomainError → String
  | .mk _ k _ _ _ _ _ => k

def DomainError.message : DomainError → String
  | .mk _ _ m _ _ _ _ => m

def DomainError.context : DomainError → Option CtxObj
  | .mk _ _ _ c _ _ _ => c

def DomainError.cause : DomainError → Option (DomainError ⊕ JSValue)
  | .mk _ _ _ _ c _ _ => c

def DomainError.stack : DomainError → Option String
  | .mk _ _ _ _ _ s _ => s

def DomainError.timestamp : DomainError → Nat
  | .mk _ _ _ _ _ _ t => t

/-- Lookup of a key in a record's context (none when the context field is
absent). -/
def DomainError.ctxGet (d : DomainError) (k : String) : Option JSValue :=
  match d.context with
  | some c => jsGetProp c.entries k
  | none => none

/-- The per-instance stack override of the builder: 'capture' or 'skip'. -/
inductive StackOv : Type where
  | capture : StackOv
  | skip : StackOv

/-- The mutable state of ErrorBuilderImpl (src/errors/builder.ts): kind,
optional message, accumulated context object, the cause slot (initially the
JavaScript value undefined) and the per-instance stack override. -/
structure Builder : Type where
  kind : String
  message : Option String
  context : CtxObj
  cause : DomainError ⊕ JSValue
  stackOverride : Option StackOv

/-- error(kind) of src/errors/builder.ts: a fresh builder with no message,
an empty plain context object, an undefined cause and no stack override. -/
def error (kind : String) : Builder :=
  ⟨kind, none, ⟨false, []⟩, .inr .undefined, none⟩

/-- withMessage: sets or overwrites the message. -/
def Builder.withMessage (b : Builder) (m : String) : Builder :=
  { b with message := some m }

/-- withContext: shallow-merges the argument into the accumulated context
(spread semantics: later keys win); the result is a fresh plain object. -/
def Builder.withContext (b : Builder) (ctx : List (String × JSValue)) : Builder :=
  { b with context := ⟨false, spreadInto b.context.entries ctx⟩ }

/-- withCause: sets the cause slot (a DomainError or any value). -/
def Builder.withCause (b : Builder) (c : DomainError ⊕ JSValue) : Builder :=
  { b with cause := c }

/-- captureStack (builder method): per-instance override 'capture'. -/
def Builder.captureStack (b : Builder) : Builder :=
  { b with stackOverride := some .capture }

/-- skipStack (builder method): per-instance override 'skip'. -/
def Builder.skipStack (b : Builder) : Builder :=
  { b with stackOverride := some .skip }

/-- build of src/errors/builder.ts.  Fails (throws, modelled by Except)
when the message is unset or empty (the source tests the falsy
`!this.message`).  Otherwise resolves the stack decision (instance override
first, else the global policy), keeps the context only when it has keys,
drops undefined-valued fields (an unset cause, a stack that was not
captured) and freezes the resulting record.  now models Date.now(). -/
def Builder.build (b : Builder) (cfg : StackConfig) (now : Nat) :
    Except String DomainError :=
  match b.message with
  | none =>
    .error ("Error builder for kind '" ++ b.kind ++
      "' requires a message. Call withMessage() before build().")
  | some m =>
    if m = "" then
      .error ("Error builder for kind '" ++ b.kind ++
        "' requires a message. Call withMessage() before build().")
    else
      let shouldCapture : Bool :=
        match b.stackOverride with
        | some .capture => true
        | some .skip => false
        | none => getCaptureStacks cfg
      let contextField : Option CtxObj :=
        if b.context.entries.isEmpty then none else some b.context
      let stackField : Option String :=
        if shouldCapture then some (TsRustResult.captureStack cfg) else none
      let causeField : Option (DomainError ⊕ JSValue) :=
        match b.cause with
        | .inr .undefined => none
        | c => some c
      .ok (.mk true b.kind m contextField causeField stackField now)

/-- One validation issue (src/errors/types.ts). -/
structure ValidationIssue : Type where
  path : List String
  message : String

/-- Encoding of a validation issue as the JavaScript value stored in
context.issues. -/
def ValidationIssue.toJS (i : ValidationIssue) : JSValue :=
  .obj [("path", .arr (i.path.map .str)), ("message", .str i.message)]

/-- fileNotFound of src/errors/factories.ts: message template plus the path
in context; no per-instance stack override. -/
def fileNotFound (path : String) (cfg : StackConfig) (now : Nat) :
    Except String DomainError :=
  ((error "FileNotFound").withMessage ("File not found: " ++ path)
    |>.withContext [("path", .str path)]).build cfg now

/-- fileReadError of src/errors/factories.ts. -/
def fileReadError (path reason : String) (cfg : StackConfig) (now : Nat) :
    Except String DomainError :=
  ((error "FileReadError").withMessage
      ("Failed to read file '" ++ path ++ "': " ++ reason)
    |>.withContext [("path", .str path), ("reason", .str reason)]).build cfg now

/-- invalidJSON of src/errors/factories.ts (the input is truncated to 100
characters for logging). -/
def invalidJSON (input parseError : String) (cfg : StackConfig) (now : Nat) :
    Except String DomainError :=
  ((error "InvalidJSON").withMessage ("Invalid JSON: " ++ parseError)
    |>.withContext [("input", .str (input.take 100)),
      ("parseError", .str parseError)]).build cfg now

/-- schemaValidation of src/errors/factories.ts: a validation-type factory,
calls skipStack. -/
def schemaValidation (issues : List ValidationIssue) (cfg : StackConfig)
    (now : Nat) : Except String DomainError :=
  (((error "SchemaValidation").withMessage
      ("Validation failed: " ++ toString issues.length ++ " issue(s)")
    |>.withContext [("issues", .arr (issues.map ValidationIssue.toJS))]).skipStack).build
    cfg now

/-- requiredFieldMissing of src/errors/factories.ts: validation-type,
calls skipStack. -/
def requiredFieldMissing (field : String) (cfg : StackConfig) (now : Nat) :
    Except String DomainError :=
  (((error "RequiredFieldMissing").withMessage
      ("Required field missing: " ++ field)
    |>.withContext [("field", .str field)]).skipStack).build cfg now

/-- invalidFieldValue of src/errors/factories.ts: validation-type, calls
skipStack. -/
def invalidFieldValue (field : String) (value : JSValue) (expected : String)
    (cfg : StackConfig) (now : Nat) : Except String DomainError :=
  (((error "InvalidFieldValue").withMessage
      ("Invalid value for field '" ++ field ++ "': expected " ++ expected)
    |>.withContext [("field", .str field), ("value", value),
      ("expected", .str expected)]).skipStack).build cfg now

/-- typeMismatch of src/errors/factories.ts: validation-type, calls
skipStack. -/
def typeMismatch (field expected received : String) (cfg : StackConfig)
    (now : Nat) : Except String DomainError :=
  (((error "TypeMismatch").withMessage
      ("Type mismatch for field '" ++ field ++ "': expected " ++ expected ++
        ", received " ++ received)
    |>.withContext [("field", .str field), ("expected", .str expected),
      ("received", .str received)]).skipStack).build cfg now

/-- unexpected of src/errors/factories.ts: calls captureStack (the comment
in the source says: always capture stack for unexpected errors). -/
def unexpected (message : String) (originalError : JSValue)
    (cfg : StackConfig) (now : Nat) : Except String DomainError :=
  (((error "Unexpected").withMessage message
    |>.withContext [("originalError", originalError)]).captureStack).build cfg now

/-- The object spread at the end of fromError's Error branch: a fresh plain
(unfrozen) object with all fields of the built record and the stack
property overridden by the foreign error's stack text. -/
def spreadWithStack (r : DomainError) (s : String) : DomainError :=
  .mk false r.kind r.message r.context r.cause (some s) r.timestamp

/-- fromError of src/errors/conversion.ts.  An Error instance keeps its own
message and, when captureStackFromError yields a non-empty text, that text
overrides the built record's stack via an object spread; any other value is
stringified and built with a forced captureStack.  The build can fail
(Except.error) exactly when the builder's message validation fails. -/
def fromError (cfg : StackConfig) (now : Nat) (e : JSValue) :
    Except String DomainError :=
  match e with
  | .errObj m stk =>
    let builder := (error "Unexpected").withMessage m
      |>.withContext [("originalError", e)]
    let stack := captureStackFromError cfg stk
    if stack ≠ "" then
      (builder.captureStack.build cfg now).map (fun r => spreadWithStack r stack)
    else
      builder.build cfg now
  | _ =>
    (((error "Unexpected").withMessage (jsToString e)
      |>.withContext [("originalError", e)]).captureStack).build cfg now

/-- ok of src/index.ts, as the JavaScript object it returns. -/
def okJS (v : JSValue) : JSValue :=
  .obj [("ok", .bool true), ("value", v), ("_isr", .bool true)]

/-- err of src/index.ts, as the JavaScript object it returns. -/
def errJS (e : JSValue) : JSValue :=
  .obj [("ok", .bool false), ("error", e), ("_isr", .bool true)]

/-- The double-wrap guard of tryResultSafe / tryResultSafeSync: the source
tests value && typeof value === 'object' && '_isr' in value &&
value._isr === true.  On the modelled values only a plain object can pass
(it is truthy, has typeof "object" and can carry an own _isr property). -/
def isMarkedResult : JSValue → Bool
  | .obj props =>
    match jsGetProp props "_isr" with
    | some (.bool true) => true
    | _ => false
  | _ => false

/-- The JavaScript object a built DomainError record is: its present fields
in construction order (kind, message, context, cause, stack, timestamp). -/
def DomainError.toJS : DomainError → JSValue
  | .mk _ k m ctx cause stk ts =>
    .obj ([("kind", .str k), ("message", .str m)] ++
      (match ctx with
       | some c => [("context", JSValue.obj c.entries)]
       | none => []) ++
      (match cause with
       | some (.inl d) => [("cause", DomainError.toJS d)]
       | some (.inr v) => [("cause", v)]
       | none => []) ++
      (match stk with
       | some s => [("stack", JSValue.str s)]
       | none => []) ++
      [("timestamp", .num (Int.ofNat ts))])

/-- The behaviour of the callback handed to tryResultSafe /
tryResultSafeSync: it either returns a value or throws one.  For the async
variant this is the settled outcome of awaiting the callback. -/
inductive SyncOutcome : Type where
  | ret (v : JSValue) : SyncOutcome
  | thr (e : JSValue) : SyncOutcome

/-- tryResultSafeSync of src/errors/conversion.ts: a returned value that
already carries the Result marker is passed through unchanged, any other
returned value is wrapped in ok, and a thrown value is converted with
fromError and wrapped in err (a failure inside fromError propagates as the
Except error, modelling the escaping exception). -/
def tryResultSafeSync (cfg : StackConfig) (now : Nat) :
    SyncOutcome → Except String JSValue
  | .ret v => if isMarkedResult v then .ok v else .ok (okJS v)
  | .thr e => (fromError cfg now e).map (fun r => errJS r.toJS)

/-- tryResultSafe of src/errors/conversion.ts: identical logic to the sync
variant, applied to the settled outcome of awaiting the callback. -/
def tryResultSafe (cfg : StackConfig) (now : Nat) :
    SyncOutcome → Except String JSValue
  | .ret v => if isMarkedResult v then .ok v else .ok (okJS v)
  | .thr e => (fromError cfg now e).map (fun r => errJS r.toJS)

/-- toSentryError of src/errors/conversion.ts, as the own-property bag of
the produced exception object.  new Error(message) gives name "Error", the
record's message and whatever stack the runtime assigns (runtimeStack);
then name is set to the record's kind; then, when the record has a truthy
stack, the stack is replaced by the synthesized header plus the record's
stack text; finally Object.assign copies every context entry onto the
exception. -/
def toSentryError (d : DomainError) (runtimeStack : String) :
    List (String × JSValue) :=
  let e0 : List (String × JSValue) :=
    [("name", .str "Error"), ("message", .str d.message),
      ("stack", .str runtimeStack)]
  let e1 := setK e0 "name" (.str d.kind)
  let e2 :=
    match d.stack with
    | some s =>
      if s ≠ "" then
        setK e1 "stack" (.str (d.kind ++ ": " ++ d.message ++ "\n" ++ s))
      else e1
    | none => e1
  match d.context with
  | some c => spreadInto e2 c.entries
  | none => e2

/-- MAX_CAUSE_DEPTH of src/observability/logging.ts. -/
def MAX_CAUSE_DEPTH : Nat := 10

/-- The structured log context toLogContext returns: the raw error_kind and
error_message values, the optional error_context / error_timestamp /
error_stack values (present only when truthy), and the optional error_cause
(either a recursive log context or, for a non-record cause, the pair of its
typeof string and its String(...) conversion). -/
inductive LogCtx : Type where
  | mk (kind message : JSValue) (context timestamp stack : Option JSValue)
      (cause : Option (LogCtx ⊕ (String × String))) : LogCtx

def LogCtx.kind : LogCtx → JSValue
  | .mk k _ _ _ _ _ => k

def LogCtx.message : LogCtx → JSValue
  | .mk _ m _ _ _ _ => m

def LogCtx.cause : LogCtx → Option (LogCtx ⊕ (String × String))
  | .mk _ _ _ _ _ c => c

/-- The marker toLogContext emits past the depth cap. -/
def maxDepthMarker : LogCtx :=
  .mk (.str "MaxCauseDepthExceeded")
    (.str ("Max cause chain depth (" ++ toString MAX_CAUSE_DEPTH ++ ") exceeded"))
    none none none none

/-- A node of the traversal of toLogContext: either a DomainError record of
this library or a foreign object (a property bag) that passed the source's
shape test (typeof object, non-null, has kind and has message). -/
def LogNode : Type := DomainError ⊕ List (String × JSValue)

/-- The raw value of node.kind. -/
def nodeKind : LogNode → JSValue
  | .inl d => .str d.kind
  | .inr props => (jsGetProp props "kind").getD .undefined

/-- The raw value of node.message. -/
def nodeMessage : LogNode → JSValue
  | .inl d => .str d.message
  | .inr props => (jsGetProp props "message").getD .undefined

/-- The raw value of node.context (undefined when absent). -/
def nodeContext : LogNode → JSValue
  | .inl d =>
    match d.context with
    | some c => .obj c.entries
    | none => .undefined
  | .inr props => (jsGetProp props "context").getD .undefined

/-- The raw value of node.timestamp. -/
def nodeTimestamp : LogNode → JSValue
  | .inl d => .num (Int.ofNat d.timestamp)
  | .inr props => (jsGetProp props "timestamp").getD .undefined

/-- The raw value of node.stack. -/
def nodeStack : LogNode → JSValue
  | .inl d =>
    match d.stack with
    | some s => .str s
    | none => .undefined
  | .inr props => (jsGetProp props "stack").getD .undefined

/-- The source's cause handling for a raw cause value: a falsy cause is
skipped; a truthy object carrying kind and message properties is traversed
recursively; anything else is reported as a foreign cause. -/
def classifyCause (v : JSValue) : Option (LogNode ⊕ JSValue) :=
  if jsTruthy v then
    match v with
    | .obj props =>
      if (jsGetProp props "kind").isSome && (jsGetProp props "message").isSome
      then some (.inl (.inr props))
      else some (.inr v)
    | _ => some (.inr v)
  else none

/-- The raw cause slot of a node, classified.  A DomainError cause that is
itself a record (Sum.inl) is an object with kind and message, so it always
passes the source's shape test. -/
def causeNode : LogNode → Option (LogNode ⊕ JSValue)
  | .inl d =>
    match d.cause with
    | none => none
    | some (.inl d') => some (.inl (.inl d'))
    | some (.inr v) => classifyCause v
  | .inr props =>
    match jsGetProp props "cause" with
    | none => none
    | some v => classifyCause v

/-- A truthy value, kept as-is; a falsy value, dropped (the source's
conditional field additions). -/
def optTruthy (v : JSValue) : Option JSValue :=
  if jsTruthy v then some v else none

/-- toLogContext of src/observability/logging.ts.  The guard
depth > MAX_CAUSE_DEPTH returns the marker before anything else; the
recursive call happens at depth + 1, so the definition terminates by the
measure MAX_CAUSE_DEPTH + 1 - depth — exactly the source's own termination
argument, independent of the shape of the cause chain. -/
def toLogContextNode (x : LogNode) (depth : Nat) : LogCtx :=
  if h : depth > MAX_CAUSE_DEPTH then maxDepthMarker
  else
    LogCtx.mk (nodeKind x) (nodeMessage x) (optTruthy (nodeContext x))
      (optTruthy (nodeTimestamp x)) (optTruthy (nodeStack x))
      (match causeNode x with
       | none => none
       | some (.inl n) => some (.inl (toLogContextNode n (depth + 1)))
       | some (.inr v) => some (.inr (jsTypeof v, jsToString v)))
termination_by MAX_CAUSE_DEPTH + 1 - depth
decreasing_by
  simp only [MAX_CAUSE_DEPTH] at h ⊢
  omega

/-- toLogContext applied to a DomainError record at the default depth 0. -/
def toLogContext (d : DomainError) : LogCtx :=
  toLogContextNode (.inl d) 0

/-- One record of an unbounded cause chain (kind and message only). -/
structure ChainRec : Type where
  kind : String
  message : String

/-- toLogContext's traversal of an unbounded cause chain: record i has
cause record i + 1, so a cyclic chain of records is the special case of a
periodic f.  Every record is a domain record (object with kind and
message), so every step recurses.  The definition is total by the same
measure as toLogContextNode: the source's depth guard alone stops the
traversal, whatever the chain's shape. -/
def toLogContextChain (f : Nat → ChainRec) (i depth : Nat) : LogCtx :=
  if h : depth > MAX_CAUSE_DEPTH then maxDepthMarker
  else
    LogCtx.mk (.str (f i).kind) (.str (f i).message) none none none
      (some (.inl (toLogContextChain f (i + 1) (depth + 1))))
termination_by MAX_CAUSE_DEPTH + 1 - depth
decreasing_by
  simp only [MAX_CAUSE_DEPTH] at h ⊢
  omega

/-- The number of nested recursive error_cause levels below a log
context. -/
def LogCtx.causeDepth : LogCtx → Nat
  | .mk _ _ _ _ _ (some (.inl c)) => c.causeDepth + 1
  | _ => 0

/-- The innermost log context along the recursive error_cause spine. -/
def LogCtx.innermost : LogCtx → LogCtx
  | .mk _ _ _ _ _ (some (.inl c)) => c.innermost
  | x => x

/-- A synthetic chain of nested DomainError records: mkChain n is a record
with a cause chain of n records below it. -/
def mkChain : Nat → DomainError
  | 0 => .mk true "Leaf" "leaf error" none none none 1
  | n + 1 =>
    .mk true "Nested" "nested" none
      (some (.inl (mkChain n))) none 1

/-
Shared proof infrastructure: concrete stack configurations used by the
closed theorems, and evaluation lemmas for the builder.
-/

/-- A realistic raw stack text as a fresh Error().stack would hold at a
capture site. -/
def rawA : String :=
  "Error\n    at captureStack (stack.ts:89:17)\n    at build (builder.ts:122:33)\n    at main (index.ts:8:5)"

/-- Global override forceOff (setCaptureStacks(false)). -/
def cfgOff : StackConfig := ⟨some false, some "production", rawA⟩

/-- Global override forceOn (setCaptureStacks(true)). -/
def cfgOn : StackConfig := ⟨some true, some "production", rawA⟩

/-- No override, production environment: effective capture off. -/
def cfgProd : StackConfig := ⟨none, some "production", rawA⟩

/-- No override, development environment: effective capture on. -/
def cfgDev : StackConfig := ⟨none, some "development", rawA⟩

/-- A string with a non-empty left part is non-empty. -/
theorem append_left_ne_empty (a b : String) (h : a ≠ "") : a ++ b ≠ "" := by
  intro hc
  apply h
  have h2 := congrArg String.length hc
  rw [String.length_append] at h2
  have h3 : a.length = 0 := by
    have : ("" : String).length = 0 := rfl
    omega
  cases a with
  | mk data =>
    cases data with
    | nil => rfl
    | cons c cs => simp [String.length] at h3

/-- Evaluation of a successful build: with a non-empty message the builder
returns the frozen record assembled from its state. -/
theorem build_eq_ok (b : Builder) (cfg : StackConfig) (now : Nat) (m : String)
    (hm : b.message = some m) (hne : m ≠ "") :
    b.build cfg now = .ok (.mk true b.kind m
      (if b.context.entries.isEmpty then none else some b.context)
      (match b.cause with
       | .inr .undefined => none
       | c => some c)
      (if (match b.stackOverride with
           | some .capture => true
           | some .skip => false
           | none => getCaptureStacks cfg) then some (TsRustResult.captureStack cfg)
       else none)
      now) := by
  unfold Builder.build
  rw [hm]
  simp only [if_neg hne]

/-- A successful build produces a frozen record. -/
theorem build_frozen (b : Builder) (cfg : StackConfig) (now : Nat)
    (r : DomainError) (h : b.build cfg now = .ok r) : r.frozen = true := by
  unfold Builder.build at h
  split at h
  · exact absurd h (by simp)
  · split at h
    · exact absurd h (by simp)
    · simp only [Except.ok.injEq] at h
      subst h
      rfl

/-
Claim C1.
-/

/-- The message fromError derives from a thrown value: e.message for a
native exception, String(e) for anything else (the two withMessage
arguments of the source's two branches). -/
def derivedMessage : JSValue → String
  | .errObj m _ => m
  | v => jsToString v

/-- Claim C1, counterexample: the claim says fromError returns a record
without throwing for every thrown value, but a thrown empty string derives
an empty message, the builder inside fromError rejects it, and the
exception escapes tryResultSafeSync as well. -/
theorem C1_counterexample :
    (fromError cfgDev 0 (.str "")).isOk = false ∧
    (tryResultSafeSync cfgDev 0 (.thr (.str ""))).isOk = false := ⟨rfl, rfl⟩

/-- Evaluation of fromError on a non-Error value with a non-empty
stringification. -/
theorem fromError_other (cfg : StackConfig) (now : Nat) (e : JSValue)
    (heq : fromError cfg now e =
      (((error "Unexpected").withMessage (jsToString e)
        |>.withContext [("originalError", e)]).captureStack).build cfg now)
    (h : jsToString e ≠ "") :
    fromError cfg now e = .ok (.mk true "Unexpected" (jsToString e)
      (some ⟨false, [("originalError", e)]⟩) none
      (some (TsRustResult.captureStack cfg)) now) := by
  rw [heq]
  rw [build_eq_ok _ cfg now (jsToString e) rfl h]
  rfl

/-- Claim C1 (amended): for every thrown value whose derived message
(e.message for a native exception, String(e) otherwise) is non-empty,
fromError returns without throwing a record of kind "Unexpected" whose
context.originalError is the thrown value itself, and tryResultSafeSync
returns that record wrapped by err. -/
theorem C1_fromError_structured (cfg : StackConfig) (now : Nat) (e : JSValue)
    (h : derivedMessage e ≠ "") :
    ∃ r : DomainError,
      fromError cfg now e = .ok r ∧
      r.kind = "Unexpected" ∧
      r.ctxGet "originalError" = some e ∧
      tryResultSafeSync cfg now (.thr e) = .ok (errJS r.toJS) := by
  have main : ∃ r, fromError cfg now e = .ok r ∧ r.kind = "Unexpected" ∧
      r.ctxGet "originalError" = some e := by
    cases e with
    | errObj m stk =>
      have hm : m ≠ "" := h
      show ∃ r, (let builder := (error "Unexpected").withMessage m
          |>.withContext [("originalError", .errObj m stk)]
        let stack := captureStackFromError cfg stk
        if stack ≠ "" then
          (builder.captureStack.build cfg now).map (fun r => spreadWithStack r stack)
        else
          builder.build cfg now) = .ok r ∧ _ ∧ _
      by_cases hs : captureStackFromError cfg stk ≠ ""
      · rw [if_pos hs]
        rw [build_eq_ok _ cfg now m rfl hm]
        exact ⟨_, rfl, rfl, rfl⟩
      · rw [if_neg hs]
        rw [build_eq_ok _ cfg now m rfl hm]
        exact ⟨_, rfl, rfl, rfl⟩
    | undefined => exact ⟨_, fromError_other cfg now _ rfl h, rfl, rfl⟩
    | null => exact ⟨_, fromError_other cfg now _ rfl h, rfl, rfl⟩
    | bool b => exact ⟨_, fromError_other cfg now _ rfl h, rfl, rfl⟩
    | num n => exact ⟨_, fromError_other cfg now _ rfl h, rfl, rfl⟩
    | str s => exact ⟨_, fromError_other cfg now _ rfl h, rfl, rfl⟩
    | obj props => exact ⟨_, fromError_other cfg now _ rfl h, rfl, rfl⟩
    | arr xs => exact ⟨_, fromError_other cfg now _ rfl h, rfl, rfl⟩
  obtain ⟨r, hr, hk, hc⟩ := main
  refine ⟨r, hr, hk, hc, ?_⟩
  show (fromError cfg now e).map (fun r => errJS r.toJS) = _
  rw [hr]
  rfl

/-- Claim C1, witness: the amended theorem applied to a thrown string
"boom" under the development configuration. -/
theorem C1_witness :
    derivedMessage (JSValue.str "boom") ≠ "" ∧
    (∃ r : DomainError,
      fromError cfgDev 0 (.str "boom") = .ok r ∧
      r.kind = "Unexpected" ∧
      r.ctxGet "originalError" = some (.str "boom") ∧
      tryResultSafeSync cfgDev 0 (.thr (.str "boom")) = .ok (errJS r.toJS)) :=
  ⟨by decide, C1_fromError_structured cfgDev 0 (.str "boom") (by decide)⟩


/-- A sample embedded stack text of a foreign exception. -/
def origStack : String := "    at throwSite (app.ts:3:7)\n    at caller (app.ts:9:2)"

/-- Claim C2, counterexample: the claim asserts the stack of the thrown
exception is preserved with no precondition on the global stack-capture
policy, but with the override forceOff, fromError of a native exception
carrying a stack yields a record without any stack field
(captureStackFromError is gated by the global policy). -/
theorem C2_counterexample :
    ∃ r : DomainError,
      fromError cfgOff 3 (.errObj "boom" (some origStack)) = .ok r ∧
      r.message = "boom" ∧ r.stack = none := by
  exact ⟨_, rfl, rfl, rfl⟩

/-- Claim C2 (amended): for a native exception with a non-empty message
and a non-empty embedded stack, and provided the effective global capture
decision is on, fromError returns a record whose message equals e.message
and whose stack equals e's own embedded stack text (not a freshly
synthesized one). -/
theorem C2_stack_preserved (cfg : StackConfig) (now : Nat) (m s : String)
    (hm : m ≠ "") (hs : s ≠ "") (hcap : getCaptureStacks cfg = true) :
    ∃ r : DomainError,
      fromError cfg now (.errObj m (some s)) = .ok r ∧
      r.message = m ∧ r.stack = some s := by
  have hval : captureStackFromError cfg (some s) = s := by
    unfold captureStackFromError
    rw [hcap]
    simp
  have hcond : captureStackFromError cfg (some s) ≠ "" := by
    rw [hval]; exact hs
  show ∃ r, (let builder := (error "Unexpected").withMessage m
      |>.withContext [("originalError", .errObj m (some s))]
    let stack := captureStackFromError cfg (some s)
    if stack ≠ "" then
      (builder.captureStack.build cfg now).map (fun r => spreadWithStack r stack)
    else
      builder.build cfg now) = .ok r ∧ _ ∧ _
  rw [if_pos hcond]
  rw [build_eq_ok _ cfg now m rfl hm]
  refine ⟨_, rfl, rfl, ?_⟩
  show some (captureStackFromError cfg (some s)) = some s
  rw [hval]

/-- Claim C2, witness: the amended theorem applied to an exception with
message "boom" and an embedded stack, under the development
configuration. -/
theorem C2_witness :
    ("boom" : String) ≠ "" ∧ origStack ≠ "" ∧ getCaptureStacks cfgDev = true ∧
    (∃ r : DomainError,
      fromError cfgDev 4 (.errObj "boom" (some origStack)) = .ok r ∧
      r.message = "boom" ∧ r.stack = some origStack) :=
  ⟨by decide, by decide, rfl, C2_stack_preserved cfgDev 4 "boom" origStack
    (by decide) (by decide) rfl⟩

/-- Claim C3: evaluation of the code at the failing input.  With the
global override forceOff, a build on which captureStack() was called has a
stack field holding the empty string — no trace is captured, although a
capture at this site would produce the non-empty dropTwoLines text —
because captureStack() itself re-checks the global gate.  The second half
of the claim (forceOn plus skipStack gives no stack field) behaves as
claimed. -/
theorem C3_forced_capture_empty :
    ((((error "Critical").withMessage "Critical error").captureStack).build cfgOff 5 =
      .ok (.mk true "Critical" "Critical error" none none (some "") 5)) ∧
    dropTwoLines cfgOff.rawStack ≠ "" ∧
    ((((error "Critical").withMessage "Critical error").skipStack).build cfgOn 5 =
      .ok (.mk true "Critical" "Critical error" none none none 5)) :=
  ⟨rfl, by decide, rfl⟩

/-- Claim C4, counterexample: the claim asserts no field of a built
record holds an empty value, but a build with an empty-string cause
returns a record whose cause field holds the empty string (the cleaning
step only removes fields whose value is undefined). -/
theorem C4_counterexample :
    (((error "Chained").withMessage "m").withCause (.inr (.str "")) |>.build cfgOff 2) =
      .ok (.mk true "Chained" "m" none (some (.inr (.str ""))) none 2) := rfl

/-- Claim C4 (amended): every successful build returns a record whose
message is non-empty, whose context — when present — has at least one key
(an empty accumulated context is normalized to absent), and whose cause
field never holds the value undefined; fields holding empty strings are
retained. -/
theorem C4_amended (b : Builder) (cfg : StackConfig) (now : Nat)
    (r : DomainError) (h : b.build cfg now = .ok r) :
    r.message ≠ "" ∧
    (∀ c : CtxObj, r.context = some c → c.entries ≠ []) ∧
    r.cause ≠ some (.inr .undefined) := by
  obtain ⟨bk, bm, bc, bca, bso⟩ := b
  unfold Builder.build at h
  split at h
  · exact absurd h (by simp)
  · split at h
    · exact absurd h (by simp)
    · rename_i m hsome hne
      simp only [Except.ok.injEq] at h
      subst h
      refine ⟨hne, ?_, ?_⟩
      · intro c hc
        by_cases hemp : bc.entries.isEmpty
        · simp only [DomainError.context, if_pos hemp] at hc
          exact absurd hc (by simp)
        · simp only [DomainError.context, if_neg hemp] at hc
          obtain rfl : bc = c := by injection hc
          intro hnil
          exact hemp (by simp [hnil])
      · rcases bca with d | v
        · simp [DomainError.cause]
        · cases v <;> simp [DomainError.cause]

/-- Claim C4, witness: the amended theorem applied to a concrete build
with a context, under the development configuration. -/
theorem C4_witness :
    ∃ r : DomainError,
      ((error "FileNotFound").withMessage "File not found: /x"
        |>.withContext [("path", .str "/x")]).build cfgDev 7 = .ok r ∧
      (r.message ≠ "" ∧ (∀ c : CtxObj, r.context = some c → c.entries ≠ []) ∧
        r.cause ≠ some (.inr .undefined)) :=
  ⟨_, rfl, C4_amended ((error "FileNotFound").withMessage "File not found: /x"
    |>.withContext [("path", .str "/x")]) cfgDev 7 _ rfl⟩


/-- Claim C5: tryResultSafe and tryResultSafeSync never nest Results.  A
returned value carrying the internal _isr marker is returned unchanged; a
non-Result return value v yields ok(v); and a thrown value e yields
err(fromError(e)) — stated as the map over fromError's result, so a
failure raised inside fromError itself propagates unchanged. -/
theorem C5_no_double_wrap (cfg : StackConfig) (now : Nat) (v e : JSValue) :
    (isMarkedResult v = true →
      tryResultSafeSync cfg now (.ret v) = .ok v ∧
      tryResultSafe cfg now (.ret v) = .ok v) ∧
    (isMarkedResult v = false →
      tryResultSafeSync cfg now (.ret v) = .ok (okJS v) ∧
      tryResultSafe cfg now (.ret v) = .ok (okJS v)) ∧
    (tryResultSafeSync cfg now (.thr e) =
      (fromError cfg now e).map (fun r => errJS r.toJS) ∧
     tryResultSafe cfg now (.thr e) =
      (fromError cfg now e).map (fun r => errJS r.toJS)) := by
  refine ⟨fun h => ⟨?_, ?_⟩, fun h => ⟨?_, ?_⟩, rfl, rfl⟩
  · show (if isMarkedResult v then _ else _) = _
    rw [if_pos h]
  · show (if isMarkedResult v then _ else _) = _
    rw [if_pos h]
  · show (if isMarkedResult v then Except.ok v else .ok (okJS v)) = _
    rw [if_neg (by simp [h])]
  · show (if isMarkedResult v then Except.ok v else .ok (okJS v)) = _
    rw [if_neg (by simp [h])]

/-- Claim C5, witness: the theorem applied to a returned Result
(unchanged), a plain number (wrapped in ok), and a thrown exception
(converted and wrapped in err). -/
theorem C5_witness :
    isMarkedResult (okJS (.num 5)) = true ∧
    tryResultSafeSync cfgDev 0 (.ret (okJS (.num 5))) = .ok (okJS (.num 5)) ∧
    isMarkedResult (.num 7) = false ∧
    tryResultSafeSync cfgDev 0 (.ret (.num 7)) = .ok (okJS (.num 7)) ∧
    tryResultSafe cfgDev 0 (.thr (.errObj "x" none)) =
      (fromError cfgDev 0 (.errObj "x" none)).map (fun r => errJS r.toJS) :=
  ⟨rfl,
    ((C5_no_double_wrap cfgDev 0 (okJS (.num 5)) .null).1 rfl).1,
    rfl,
    ((C5_no_double_wrap cfgDev 0 (.num 7) .null).2.1 rfl).1,
    ((C5_no_double_wrap cfgDev 0 .null (.errObj "x" none)).2.2).2⟩

/-- Claim C6, counterexample: the claim asserts every non-validation
factory defers to the global policy, its record containing a stack exactly
when the effective capture decision is on; but the unexpected() factory
calls captureStack(), so with the override forceOff its record still
carries a stack field (holding the empty string) although the effective
decision is off. -/
theorem C6_counterexample :
    unexpected "oops" .null cfgOff 5 =
      .ok (.mk true "Unexpected" "oops"
        (some ⟨false, [("originalError", .null)]⟩) none (some "") 5) ∧
    getCaptureStacks cfgOff = false :=
  ⟨rfl, rfl⟩

/-- Claim C6 (amended): the four validation-type factories
(schemaValidation, requiredFieldMissing, invalidFieldValue, typeMismatch)
always produce records with no stack field, for every input and
configuration; a deferring factory such as fileNotFound has a stack field
exactly when the effective global capture decision is on; and the
unexpected() factory forces capture, so its record always carries a stack
field (whose text is empty when the global gate is off). -/
theorem C6_stack_by_category (cfg : StackConfig) (now : Nat)
    (issues : List ValidationIssue) (field expectedDesc received path : String)
    (value : JSValue) :
    (∃ r : DomainError, schemaValidation issues cfg now = .ok r ∧ r.stack = none) ∧
    (∃ r : DomainError, requiredFieldMissing field cfg now = .ok r ∧ r.stack = none) ∧
    (∃ r : DomainError,
      invalidFieldValue field value expectedDesc cfg now = .ok r ∧ r.stack = none) ∧
    (∃ r : DomainError,
      typeMismatch field expectedDesc received cfg now = .ok r ∧ r.stack = none) ∧
    (∃ r : DomainError,
      fileNotFound path cfg now = .ok r ∧ r.stack.isSome = getCaptureStacks cfg) ∧
    (∀ m : String, ∀ orig : JSValue, m ≠ "" →
      ∃ r : DomainError, unexpected m orig cfg now = .ok r ∧
        r.stack = some (TsRustResult.captureStack cfg)) := by
  refine ⟨?_, ?_, ?_, ?_, ?_, ?_⟩
  · exact ⟨_, build_eq_ok _ cfg now _ rfl
      (append_left_ne_empty "Validation failed: " _ (by decide)), rfl⟩
  · exact ⟨_, build_eq_ok _ cfg now _ rfl
      (append_left_ne_empty "Required field missing: " _ (by decide)), rfl⟩
  · exact ⟨_, build_eq_ok _ cfg now _ rfl
      (append_left_ne_empty "Invalid value for field '" _ (by decide)), rfl⟩
  · exact ⟨_, build_eq_ok _ cfg now _ rfl
      (append_left_ne_empty "Type mismatch for field '" _ (by decide)), rfl⟩
  · refine ⟨_, build_eq_ok _ cfg now _ rfl
      (append_left_ne_empty "File not found: " _ (by decide)), ?_⟩
    show (if (match (none : Option StackOv) with
        | some .capture => true
        | some .skip => false
        | none => getCaptureStacks cfg) then some (TsRustResult.captureStack cfg)
      else none).isSome = getCaptureStacks cfg
    by_cases hg : getCaptureStacks cfg = true
    · simp [hg]
    · simp only [Bool.not_eq_true] at hg
      simp [hg]
  · intro m orig hm
    exact ⟨_, build_eq_ok _ cfg now _ rfl hm, rfl⟩

/-- Claim C6, witness: the amended theorem applied to concrete factory
calls under concrete configurations. -/
theorem C6_witness :
    ("Unexpected error in parser" : String) ≠ "" ∧
    (∃ r : DomainError,
      schemaValidation [⟨["user", "email"], "Invalid email"⟩] cfgOn 6 = .ok r ∧
      r.stack = none) ∧
    (∃ r : DomainError,
      fileNotFound "/missing.txt" cfgDev 6 = .ok r ∧
      r.stack.isSome = getCaptureStacks cfgDev) ∧
    (∃ r : DomainError,
      unexpected "Unexpected error in parser" .null cfgProd 6 = .ok r ∧
      r.stack = some (TsRustResult.captureStack cfgProd)) :=
  ⟨by decide,
    (C6_stack_by_category cfgOn 6 [⟨["user", "email"], "Invalid email"⟩]
      "f" "e" "r" "/missing.txt" .null).1,
    (C6_stack_by_category cfgDev 6 [] "f" "e" "r" "/missing.txt" .null).2.2.2.2.1,
    (C6_stack_by_category cfgProd 6 [] "f" "e" "r" "p" .null).2.2.2.2.2
      "Unexpected error in parser" .null (by decide)⟩


/-- Unfolding of toLogContextChain past the depth cap. -/
theorem chain_stop (f : Nat → ChainRec) (i d : Nat) (h : d > MAX_CAUSE_DEPTH) :
    toLogContextChain f i d = maxDepthMarker := by
  rw [toLogContextChain]
  rw [dif_pos h]

/-- Unfolding of toLogContextChain below the depth cap. -/
theorem chain_step (f : Nat → ChainRec) (i d : Nat) (h : ¬ d > MAX_CAUSE_DEPTH) :
    toLogContextChain f i d =
      LogCtx.mk (.str (f i).kind) (.str (f i).message) none none none
        (some (.inl (toLogContextChain f (i + 1) (d + 1)))) := by
  rw [toLogContextChain]
  rw [dif_neg h]

/-- On an unbounded chain the traversal starting at depth d produces
exactly MAX_CAUSE_DEPTH + 1 - d nested levels and bottoms out in the
marker. -/
theorem chain_aux (f : Nat → ChainRec) :
    ∀ k d i, MAX_CAUSE_DEPTH + 1 - d = k →
      (toLogContextChain f i d).causeDepth = k ∧
      (toLogContextChain f i d).innermost = maxDepthMarker := by
  intro k
  induction k with
  | zero =>
    intro d i hk
    have hd : d > MAX_CAUSE_DEPTH := by
      simp [MAX_CAUSE_DEPTH] at hk ⊢; omega
    rw [chain_stop f i d hd]
    constructor <;> rfl
  | succ k ih =>
    intro d i hk
    have hd : ¬ d > MAX_CAUSE_DEPTH := by
      simp [MAX_CAUSE_DEPTH] at hk ⊢; omega
    have hrec := ih (d + 1) (i + 1) (by simp [MAX_CAUSE_DEPTH] at hk ⊢; omega)
    rw [chain_step f i d hd]
    constructor
    · simp [LogCtx.causeDepth, hrec.1]
    · simp [LogCtx.innermost, hrec.2]

/-- Descent along n recursive error_cause levels of a log context. -/
def LogCtx.descend : LogCtx → Nat → Option LogCtx
  | c, 0 => some c
  | .mk _ _ _ _ _ (some (.inl c)), n + 1 => c.descend n
  | _, _ + 1 => none

/-- Claim C7: on a chain of 20 nested causes, toLogContext emits real
entries down to depth 10 and a MaxCauseDepthExceeded marker at depth 11 in
place of all deeper records; and on an unbounded (in particular cyclic)
chain, the traversal terminates with the same marker after
MAX_CAUSE_DEPTH + 1 levels, whatever the chain contains — the depth guard
alone stops it. -/
theorem C7_cause_depth_cap :
    ((toLogContext (mkChain 20)).causeDepth = MAX_CAUSE_DEPTH + 1 ∧
      ((toLogContext (mkChain 20)).descend 10).map LogCtx.kind =
        some (.str "Nested") ∧
      (toLogContext (mkChain 20)).descend 11 = some maxDepthMarker ∧
      (toLogContext (mkChain 20)).innermost = maxDepthMarker ∧
      maxDepthMarker.kind = .str "MaxCauseDepthExceeded") ∧
    (∀ f : Nat → ChainRec, ∀ i : Nat,
      (toLogContextChain f i 0).causeDepth = MAX_CAUSE_DEPTH + 1 ∧
      (toLogContextChain f i 0).innermost = maxDepthMarker) := by
  constructor
  · refine ⟨?_, ?_, ?_, ?_, rfl⟩ <;>
      simp [toLogContext, toLogContextNode, mkChain, MAX_CAUSE_DEPTH, causeNode,
        LogCtx.causeDepth, LogCtx.innermost, LogCtx.descend, nodeKind, nodeMessage,
        nodeContext, nodeTimestamp, nodeStack, optTruthy, jsTruthy, maxDepthMarker,
        DomainError.kind, DomainError.message, DomainError.context,
        DomainError.cause, DomainError.stack, DomainError.timestamp, LogCtx.kind]
  · intro f i
    exact chain_aux f (MAX_CAUSE_DEPTH + 1) 0 i rfl


/-- Assignment to record.kind: rejected or without effect when the record
is frozen. -/
def DomainError.setKind (d : DomainError) (k : String) : DomainError :=
  if d.frozen then d
  else .mk d.frozen k d.message d.context d.cause d.stack d.timestamp

def DomainError.setMessage (d : DomainError) (m : String) : DomainError :=
  if d.frozen then d
  else .mk d.frozen d.kind m d.context d.cause d.stack d.timestamp

def DomainError.setContextField (d : DomainError) (c : Option CtxObj) : DomainError :=
  if d.frozen then d
  else .mk d.frozen d.kind d.message c d.cause d.stack d.timestamp

def DomainError.setCause (d : DomainError) (c : Option (DomainError ⊕ JSValue)) :
    DomainError :=
  if d.frozen then d
  else .mk d.frozen d.kind d.message d.context c d.stack d.timestamp

def DomainError.setStack (d : DomainError) (s : Option String) : DomainError :=
  if d.frozen then d
  else .mk d.frozen d.kind d.message d.context d.cause s d.timestamp

def DomainError.setTimestamp (d : DomainError) (t : Nat) : DomainError :=
  if d.frozen then d
  else .mk d.frozen d.kind d.message d.context d.cause d.stack t

/-- Claim C8: every record returned by a successful build is frozen, and
an assignment to any of its fields (kind, message, context, cause, stack,
timestamp) after construction leaves the record exactly as built. -/
theorem C8_frozen_record (b : Builder) (cfg : StackConfig) (now : Nat)
    (r : DomainError) (h : b.build cfg now = .ok r) :
    r.frozen = true ∧
    ∀ (k m : String) (c : Option CtxObj) (cs : Option (DomainError ⊕ JSValue))
      (s : Option String) (t : Nat),
      r.setKind k = r ∧ r.setMessage m = r ∧ r.setContextField c = r ∧
      r.setCause cs = r ∧ r.setStack s = r ∧ r.setTimestamp t = r := by
  have hf := build_frozen b cfg now r h
  refine ⟨hf, fun k m c cs s t => ?_⟩
  refine ⟨?_, ?_, ?_, ?_, ?_, ?_⟩ <;>
    simp [DomainError.setKind, DomainError.setMessage, DomainError.setContextField,
      DomainError.setCause, DomainError.setStack, DomainError.setTimestamp, hf]

/-- Claim C8, witness: the theorem applied to a concrete build under the
forceOn configuration. -/
theorem C8_witness :
    ∃ r : DomainError,
      ((error "Test").withMessage "Test").build cfgOn 1 = .ok r ∧
      (r.frozen = true ∧
        ∀ (k m : String) (c : Option CtxObj) (cs : Option (DomainError ⊕ JSValue))
          (s : Option String) (t : Nat),
          r.setKind k = r ∧ r.setMessage m = r ∧ r.setContextField c = r ∧
          r.setCause cs = r ∧ r.setStack s = r ∧ r.setTimestamp t = r) :=
  ⟨_, rfl, C8_frozen_record ((error "Test").withMessage "Test") cfgOn 1 _ rfl⟩

/-- Assignment to a key of record.context: a write through the context
reference.  The record's own freeze does not block it; only a freeze of the
context object itself would (and the builder never freezes it). -/
def DomainError.setContextKey (d : DomainError) (k : String) (v : JSValue) :
    DomainError :=
  match d.context with
  | some c =>
    if c.frozen then d
    else .mk d.frozen d.kind d.message (some ⟨c.frozen, setK c.entries k v⟩)
      d.cause d.stack d.timestamp
  | none => d

/-- Claim C9: the freeze applied by build() is shallow.  For a built
record with a non-empty context, the record itself is frozen but the
context object (the builder's accumulated plain object) is not, so
assigning to a key of record.context after build() succeeds and changes
the record's observable context. -/
theorem C9_shallow_freeze :
    ∃ r : DomainError,
      (((error "E").withMessage "m").withContext [("a", .num 1)]).build cfgOff 3 =
        .ok r ∧
      r.frozen = true ∧
      r.context.map CtxObj.frozen = some false ∧
      r.ctxGet "a" = some (.num 1) ∧
      (r.setContextKey "a" (.num 2)).ctxGet "a" = some (.num 2) ∧
      (r.setContextKey "a" (.num 2)).frozen = true :=
  ⟨_, rfl, rfl, rfl, rfl, rfl, rfl⟩

/-- A built record whose context deliberately carries the keys message,
name and stack. -/
def c10record : Except String DomainError :=
  (((error "FileNotFound").withMessage "real message").withContext
    [("message", .str "hijacked"), ("name", .str "FakeName"),
      ("stack", .str "fake stack")]).build cfgOn 9

/-- Claim C10: toSentryError copies the record's context onto the
exception after setting its name, message and stack, so for a record whose
context contains keys named message, name and stack, the exception's
corresponding properties equal the context values rather than the record's
message, its kind, or the synthesized stack header. -/
theorem C10_context_overrides :
    ∃ r : DomainError,
      c10record = .ok r ∧
      r.kind = "FileNotFound" ∧
      r.message = "real message" ∧
      r.stack = some (dropTwoLines rawA) ∧
      jsGetProp (toSentryError r "RUNTIME") "message" = some (.str "hijacked") ∧
      jsGetProp (toSentryError r "RUNTIME") "name" = some (.str "FakeName") ∧
      jsGetProp (toSentryError r "RUNTIME") "stack" = some (.str "fake stack") ∧
      ("hijacked" : String) ≠ r.message ∧
      ("FakeName" : String) ≠ r.kind := by
  exact ⟨_, rfl, rfl, rfl, rfl, rfl, rfl, rfl, by decide, by decide⟩

end TsRustResult
